import Mathlib

/-!
Verification of the `ftdi_2232_jtag_decoder` repository against its
natural-language specification.  Python sources are shallowly embedded:
mutable objects become Lean structures passed explicitly, Python
exceptions become `Except PyErr`, machine integers are `Nat` with the
masks written by the source code, and callback invocations become
returned event values.
-/

/-- Python exceptions that the embedded code can raise. -/
inductive PyErr where
  | indexError
  | keyError
  | assertionError
  | attributeError
  | typeError
  | valueError
  | notImplementedError (msg : String)
  | runtimeError (msg : String)
  | decodeError (msg : String) (lastByte : Option Nat)
deriving Repr, DecidableEq

/-- The 16 IEEE 1149.1 TAP states, from `jtag_fsm.py` (`class JtagState`). -/
inductive JtagState where
  | RESET
  | RUN_IDLE
  | DRSELECT
  | DRCAPTURE
  | DRSHIFT
  | DREXIT1
  | DRPAUSE
  | DREXIT2
  | DRUPDATE
  | IRSELECT
  | IRCAPTURE
  | IRSHIFT
  | IREXIT1
  | IRPAUSE
  | IREXIT2
  | IRUPDATE
deriving Repr, DecidableEq

/-- `JTAG_STATE_TABLE` from `jtag_fsm.py`: maps (current state, TMS bit)
to the next state.  The Python dict keys use the integers 0 and 1 for
TMS; here `false` stands for 0 and `true` for 1. -/
def JTAG_STATE_TABLE : JtagState → Bool → JtagState
  | .RESET, true => .RESET
  | .RESET, false => .RUN_IDLE
  | .RUN_IDLE, false => .RUN_IDLE
  | .RUN_IDLE, true => .DRSELECT
  | .DRSELECT, false => .DRCAPTURE
  | .DRSELECT, true => .IRSELECT
  | .DRCAPTURE, false => .DRSHIFT
  | .DRCAPTURE, true => .DREXIT1
  | .DRSHIFT, false => .DRSHIFT
  | .DRSHIFT, true => .DREXIT1
  | .DREXIT1, false => .DRPAUSE
  | .DREXIT1, true => .DRUPDATE
  | .DRPAUSE, false => .DRPAUSE
  | .DRPAUSE, true => .DREXIT2
  | .DREXIT2, false => .DRSHIFT
  | .DREXIT2, true => .DRUPDATE
  | .DRUPDATE, false => .RUN_IDLE
  | .DRUPDATE, true => .DRSELECT
  | .IRSELECT, false => .IRCAPTURE
  | .IRSELECT, true => .RESET
  | .IRCAPTURE, false => .IRSHIFT
  | .IRCAPTURE, true => .IREXIT1
  | .IRSHIFT, false => .IRSHIFT
  | .IRSHIFT, true => .IREXIT1
  | .IREXIT1, false => .IRPAUSE
  | .IREXIT1, true => .IRUPDATE
  | .IRPAUSE, false => .IRPAUSE
  | .IRPAUSE, true => .IREXIT2
  | .IREXIT2, false => .IRSHIFT
  | .IREXIT2, true => .IRUPDATE
  | .IRUPDATE, false => .RUN_IDLE
  | .IRUPDATE, true => .DRSELECT

/-- Interface of a `jtag_model` object as used by `JtagFsm` in
`jtag_fsm.py`: the duck-typed methods the FSM calls.  The model state
type is `σ`; methods may raise (asserts in the concrete models). -/
structure JtagModel (σ : Type) where
  reset : σ → Except PyErr σ
  run_idle : σ → Except PyErr σ
  shift_dr : σ → Nat → Except PyErr (σ × Nat)
  shift_ir : σ → Nat → Except PyErr (σ × Nat)
  capture_dr : σ → Except PyErr σ
  capture_ir : σ → Except PyErr σ
  update_dr : σ → Except PyErr σ
  update_ir : σ → Except PyErr σ

/-- Mutable state of `JtagFsm.__init__`: `state = RESET`, `last_tdo = 1`,
`pins_locked = True`, plus the wrapped model object. -/
structure JtagFsmState (σ : Type) where
  state : JtagState
  model : σ
  last_tdo : Nat
  pins_locked : Bool
deriving Repr

/-- Initial FSM state from `JtagFsm.__init__`. -/
def JtagFsmState.init {σ : Type} (model : σ) : JtagFsmState σ :=
  { state := .RESET, model := model, last_tdo := 1, pins_locked := true }

/-- `JtagFsm.clock(tdi, tms)` from `jtag_fsm.py` lines 109-139:
assert pins unlocked, look up the next state, fire the hook of the
current (pre-transition) state, store the new state, return `last_tdo`. -/
def JtagFsm.clock {σ : Type} (m : JtagModel σ) (s : JtagFsmState σ) (tdi : Nat)
    (tms : Bool) : Except PyErr (JtagFsmState σ × Nat) :=
  if s.pins_locked then .error .assertionError else
  let next_state := JTAG_STATE_TABLE s.state tms
  let stepped : Except PyErr (JtagFsmState σ) :=
    match s.state with
    | .RESET => (m.reset s.model).map fun mdl => { s with model := mdl }
    | .RUN_IDLE => (m.run_idle s.model).map fun mdl => { s with model := mdl }
    | .DRSHIFT =>
        (m.shift_dr s.model tdi).map fun p => { s with model := p.1, last_tdo := p.2 }
    | .DRUPDATE => (m.update_dr s.model).map fun mdl => { s with model := mdl }
    | .DRCAPTURE => (m.capture_dr s.model).map fun mdl => { s with model := mdl }
    | .IRSHIFT =>
        (m.shift_ir s.model tdi).map fun p => { s with model := p.1, last_tdo := p.2 }
    | .IRUPDATE => (m.update_ir s.model).map fun mdl => { s with model := mdl }
    | .IRCAPTURE => (m.capture_ir s.model).map fun mdl => { s with model := mdl }
    | _ => .ok s
  stepped.map fun s2 => ({ s2 with state := next_state }, s2.last_tdo)

/-- The hook dispatch exactly as the specification sentence describes it:
the entry action of the pre-transition state, applied to the model, with
shift results becoming the new `last_tdo` and all other states keeping
the previous one. -/
def specHook {σ : Type} (m : JtagModel σ) (st : JtagState) (mdl : σ)
    (last_tdo tdi : Nat) : Except PyErr (σ × Nat) :=
  match st with
  | .RESET => (m.reset mdl).map fun x => (x, last_tdo)
  | .RUN_IDLE => (m.run_idle mdl).map fun x => (x, last_tdo)
  | .DRSHIFT => m.shift_dr mdl tdi
  | .DRCAPTURE => (m.capture_dr mdl).map fun x => (x, last_tdo)
  | .DRUPDATE => (m.update_dr mdl).map fun x => (x, last_tdo)
  | .IRSHIFT => m.shift_ir mdl tdi
  | .IRCAPTURE => (m.capture_ir mdl).map fun x => (x, last_tdo)
  | .IRUPDATE => (m.update_ir mdl).map fun x => (x, last_tdo)
  | _ => .ok (mdl, last_tdo)

/-- A model whose hooks all succeed and do nothing, used to run the FSM
through concrete TMS sequences. -/
def trivialModel : JtagModel Unit :=
  { reset := fun u => .ok u
    run_idle := fun u => .ok u
    shift_dr := fun u _ => .ok (u, 0)
    shift_ir := fun u _ => .ok (u, 0)
    capture_dr := fun u => .ok u
    capture_ir := fun u => .ok u
    update_dr := fun u => .ok u
    update_ir := fun u => .ok u }

/-- States visited by clocking a TMS sequence (with TDI = 0), the
pre-clock state first. -/
def clockTrace {σ : Type} (m : JtagModel σ) : JtagFsmState σ → List Bool → List JtagState
  | s, [] => [s.state]
  | s, tms :: rest =>
      s.state ::
        (match JtagFsm.clock m s 0 tms with
          | .ok (s2, _) => clockTrace m s2 rest
          | .error _ => [])

/-- Claim C1: For every call to `JtagFsm.clock(tdi, tms)` with the pins
unlocked, the hook of the pre-transition state is invoked on the model
first (reset in RESET, run_idle in RUN_IDLE, shift_dr(tdi) in DRSHIFT
and shift_ir(tdi) in IRSHIFT with the result stored as `last_tdo`,
capture_dr/capture_ir in DRCAPTURE/IRCAPTURE, update_dr/update_ir in
DRUPDATE/IRUPDATE), then the state becomes the entry of the IEEE 1149.1
transition table for (current state, tms), and the stored `last_tdo` is
returned; and starting from RESET, clocking TMS 0,1,1,0,0 drives the
state through RUN_IDLE, DRSELECT, IRSELECT, IRCAPTURE, IRSHIFT. -/
theorem clock_fires_hook_then_transitions :
    (∀ (σ : Type) (m : JtagModel σ) (s : JtagFsmState σ) (tdi : Nat) (tms : Bool),
      s.pins_locked = false →
      JtagFsm.clock m s tdi tms =
        (specHook m s.state s.model s.last_tdo tdi).map
          fun p => ({ state := JTAG_STATE_TABLE s.state tms, model := p.1,
                      last_tdo := p.2, pins_locked := s.pins_locked }, p.2)) ∧
    clockTrace trivialModel
        { JtagFsmState.init () with pins_locked := false }
        [false, true, true, false, false] =
      [.RESET, .RUN_IDLE, .DRSELECT, .IRSELECT, .IRCAPTURE, .IRSHIFT] := by
  constructor
  · intro σ m s tdi tms h
    obtain ⟨st, mdl, lt, pl⟩ := s
    simp only at h
    subst h
    cases st <;>
      simp only [JtagFsm.clock, specHook, Bool.false_eq_true, if_false] <;>
      first
        | (cases m.reset mdl <;> rfl)
        | (cases m.run_idle mdl <;> rfl)
        | (cases m.capture_dr mdl <;> rfl)
        | (cases m.capture_ir mdl <;> rfl)
        | (cases m.update_dr mdl <;> rfl)
        | (cases m.update_ir mdl <;> rfl)
        | (cases h2 : m.shift_dr mdl tdi <;> simp [h2, Except.map] <;> done)
        | (cases h2 : m.shift_ir mdl tdi <;> simp [h2, Except.map] <;> done)
  · rfl

/-- Witness for C1: the equation at a concrete unlocked state. -/
theorem clock_fires_hook_then_transitions_witness :
    JtagFsm.clock trivialModel
        { state := .RESET, model := (), last_tdo := 1, pins_locked := false } 0 false =
      (specHook trivialModel .RESET () 1 0).map
        fun p => ({ state := JTAG_STATE_TABLE .RESET false, model := p.1,
                    last_tdo := p.2, pins_locked := false }, p.2) :=
  clock_fires_hook_then_transitions.1 Unit trivialModel
    { state := .RESET, model := (), last_tdo := 1, pins_locked := false } 0 false rfl

/-- `ShiftRegister` from `registers.py`: a deque of 0/1 ints plus the
width.  `__init__` fills the deque with `width` zeros. -/
structure ShiftRegister where
  data : List Nat
  width : Nat
deriving Repr, DecidableEq

/-- `ShiftRegister.__init__(width)`. -/
def ShiftRegister.init (width : Nat) : ShiftRegister :=
  { data := List.replicate width 0, width := width }

/-- `ShiftRegister.shift(di)`: pop the left end (IndexError on an empty
deque), append `di` on the right, return the popped bit. -/
def ShiftRegister.shift (sr : ShiftRegister) (di : Nat) :
    Except PyErr (Nat × ShiftRegister) :=
  match sr.data with
  | [] => .error .indexError
  | d :: rest => .ok (d, { sr with data := rest ++ [di] })

/-- Bit `idx` of `data` as computed by `ShiftRegister.load`:
`1 if (data & (1 << idx)) != 0 else 0`. -/
def bitOf (v : Nat) (idx : Nat) : Nat :=
  if v &&& (1 <<< idx) != 0 then 1 else 0

/-- `ShiftRegister.load(data)`: write bit `idx` of the value into
`self.data[idx]` for `idx in range(width)` (IndexError when the deque is
shorter than the width). -/
def ShiftRegister.load (sr : ShiftRegister) (v : Nat) : Except PyErr ShiftRegister :=
  if sr.width ≤ sr.data.length then
    .ok { sr with data := (List.range sr.width).map (bitOf v) ++ sr.data.drop sr.width }
  else .error .indexError

/-- `ShiftRegister.read()`: fold over `enumerate(self.data)` OR-ing
`1 << idx` for each non-zero bit.  The accumulator pairs the packed
value with the running index. -/
def ShiftRegister.read (sr : ShiftRegister) : Nat :=
  (sr.data.foldl
    (fun (p : Nat × Nat) bit =>
      (if bit != 0 then p.1 ||| (1 <<< p.2) else p.1, p.2 + 1))
    (0, 0)).1

/-- Driver: perform `n` shifts with the same input bit, collecting the
emitted bits in order. -/
def ShiftRegister.shiftN (sr : ShiftRegister) (di : Nat) :
    Nat → Except PyErr (List Nat × ShiftRegister)
  | 0 => .ok ([], sr)
  | n + 1 =>
    match sr.shift di with
    | .error e => .error e
    | .ok (out, sr2) =>
      match sr2.shiftN di n with
      | .error e => .error e
      | .ok (outs, sr3) => .ok (out :: outs, sr3)

theorem shiftN_of_le (di : Nat) :
    ∀ (n : Nat) (l : List Nat) (w : Nat), n ≤ l.length →
      ShiftRegister.shiftN ⟨l, w⟩ di n =
        .ok (l.take n, ⟨l.drop n ++ List.replicate n di, w⟩) := by
  intro n
  induction n with
  | zero => intro l w _; simp [ShiftRegister.shiftN]
  | succ n ih =>
    intro l w h
    match l with
    | [] => simp at h
    | a :: l2 =>
      have h2 : n ≤ (l2 ++ [di]).length := by
        simp only [List.length_cons] at h
        simp only [List.length_append, List.length_cons, List.length_nil]
        omega
      have h3 : n ≤ l2.length := by simp only [List.length_cons] at h; omega
      simp only [ShiftRegister.shiftN, ShiftRegister.shift, ih (l2 ++ [di]) w h2]
      rw [List.take_append_of_le_length h3, List.drop_append_of_le_length h3]
      simp [List.replicate_succ]

theorem read_replicate_zero (w k : Nat) :
    ShiftRegister.read ⟨List.replicate k 0, w⟩ = 0 := by
  have h : ∀ (k acc idx : Nat),
      (List.foldl
        (fun (p : Nat × Nat) bit =>
          (if bit != 0 then p.1 ||| (1 <<< p.2) else p.1, p.2 + 1))
        (acc, idx) (List.replicate k 0)).1 = acc := by
    intro k
    induction k with
    | zero => intro acc idx; simp
    | succ k ih =>
      intro acc idx
      rw [List.replicate_succ, List.foldl_cons]
      exact ih acc (idx + 1)
  exact h k 0 0

/-- Claim C9: for every width W ≥ 1 and value v, after
`ShiftRegister(W).load(v)`, performing W shifts with input 0 emits
exactly bits 0..W-1 of v in LSB-first order, and `read()` then
returns 0. -/
theorem shift_register_lsb_first (W v : Nat) (_hW : 1 ≤ W) :
    ∃ sr1 srF : ShiftRegister,
      (ShiftRegister.init W).load v = .ok sr1 ∧
      sr1.shiftN 0 W = .ok ((List.range W).map (bitOf v), srF) ∧
      srF.read = 0 := by
  refine ⟨⟨(List.range W).map (bitOf v), W⟩, ⟨List.replicate W 0, W⟩, ?_, ?_, ?_⟩
  · simp [ShiftRegister.load, ShiftRegister.init]
  · have h := shiftN_of_le 0 W ((List.range W).map (bitOf v)) W (by simp)
    rw [h]
    simp
  · exact read_replicate_zero W W

/-- Witness for C9 at W = 3, v = 5: emitted bits 1,0,1. -/
theorem shift_register_lsb_first_witness :
    ∃ sr1 srF : ShiftRegister,
      (ShiftRegister.init 3).load 5 = .ok sr1 ∧
      sr1.shiftN 0 3 = .ok ((List.range 3).map (bitOf 5), srF) ∧
      srF.read = 0 :=
  shift_register_lsb_first 3 5 (by decide)

/-- Python dict with `Nat` keys, modelled as an association list where
the most recent write is the head. -/
def dictGet {β : Type} (d : List (Nat × β)) (k : Nat) : Option β :=
  (d.find? fun p => p.1 == k).map fun p => p.2

/-- Writing `d[k] = v`: the new pair shadows any earlier one. -/
def dictSet {β : Type} (d : List (Nat × β)) (k : Nat) (v : β) : List (Nat × β) :=
  (k, v) :: d

/-- `Buffer` from `buffer.py`: an append-only byte vector, a cursor, the
set of insertion boundaries, the per-frame ranges and the reverse map
from a range begin to its frame, plus the lazily tracked current frame. -/
structure Buffer where
  buf : List Nat
  insert_boundry : List Nat
  pop_index : Nat
  frames : List (Nat × (Nat × Nat))
  begin_to_frame : List (Nat × Nat)
  frame : Option Nat
deriving Repr, DecidableEq

/-- `Buffer.__init__`. -/
def Buffer.init : Buffer :=
  { buf := [], insert_boundry := [], pop_index := 0, frames := [],
    begin_to_frame := [], frame := none }

/-- `Buffer.__len__`: bytes remaining past the cursor. -/
def Buffer.length (b : Buffer) : Nat :=
  b.buf.length - b.pop_index

/-- `Buffer.extend(iterable, frame)`: append the bytes, record the new
end as an insertion boundary, and when a frame id is given record its
half-open range and the begin-to-frame entry. -/
def Buffer.extend (b : Buffer) (iterable : List Nat) (frame : Option Nat) : Buffer :=
  let original_index := b.buf.length
  let buf := b.buf ++ iterable
  let insert_boundry := buf.length :: b.insert_boundry
  match frame with
  | none => { b with buf := buf, insert_boundry := insert_boundry }
  | some f =>
      { b with buf := buf, insert_boundry := insert_boundry,
               frames := dictSet b.frames f (original_index, buf.length),
               begin_to_frame := dictSet b.begin_to_frame original_index f }

/-- The frame-update section of `Buffer.popleft` (`# Update self.frame`):
computes the new `self.frame`.  The dict lookups raise KeyError (also
for `self.frames[None]`) and the two `assert self.pop_index == b`
checks raise AssertionError. -/
def Buffer.popleftUpd (b : Buffer) : Except PyErr (Option Nat) :=
  if b.pop_index = 0 then
    match dictGet b.begin_to_frame b.pop_index with
    | none => .error .keyError
    | some f =>
      match dictGet b.frames f with
      | none => .error .keyError
      | some (bb, _) =>
        if b.pop_index = bb then .ok (some f) else .error .assertionError
  else
    match b.frame with
    | none => .error .keyError
    | some f =>
      match dictGet b.frames f with
      | none => .error .keyError
      | some (bb, ee) =>
        if ¬ bb ≤ b.pop_index then .error .assertionError
        else if ee ≤ b.pop_index then
          match dictGet b.begin_to_frame b.pop_index with
          | none => .error .keyError
          | some f2 =>
            match dictGet b.frames f2 with
            | none => .error .keyError
            | some (b2, _) =>
              if b.pop_index = b2 then .ok (some f2) else .error .assertionError
        else .ok (some f)

/-- `Buffer.popleft`: return the byte under the cursor, lazily updating
`self.frame` when the cursor enters a new frame range, then advance the
cursor.  The leading `assert 0 <= pop_index <= len(buf)` is the first
conditional (its lower half is trivial over `Nat`); Python raises
IndexError past the end. -/
def Buffer.popleft (b : Buffer) : Except PyErr (Nat × Buffer) :=
  if ¬ b.pop_index ≤ b.buf.length then .error .assertionError else
  if h : b.pop_index < b.buf.length then
    match b.popleftUpd with
    | .error e => .error e
    | .ok fr =>
      .ok (b.buf.get ⟨b.pop_index, h⟩,
           { b with frame := fr, pop_index := b.pop_index + 1 })
  else .error .indexError

/-- `Buffer.at_boundry`: is the cursor on a recorded insertion boundary? -/
def Buffer.at_boundry (b : Buffer) : Bool :=
  b.insert_boundry.contains b.pop_index

/-- `Buffer.current_frame`. -/
def Buffer.current_frame (b : Buffer) : Option Nat :=
  b.frame

/-- A client operation on a `Buffer`: an `extend` with a frame id, or a
`popleft` (its returned byte discarded). -/
inductive BufOp where
  | ext (batch : List Nat) (frame : Nat)
  | pop
deriving Repr, DecidableEq

/-- Run a sequence of buffer operations, propagating any exception. -/
def runBufOps (b : Buffer) : List BufOp → Except PyErr Buffer
  | [] => .ok b
  | .ext batch f :: rest => runBufOps (b.extend batch (some f)) rest
  | .pop :: rest =>
    match b.popleft with
    | .error e => .error e
    | .ok (_, b2) => runBufOps b2 rest

/-- Frame ids of the extends in an operation sequence, in order. -/
def extendIds (ops : List BufOp) : List Nat :=
  ops.filterMap fun op =>
    match op with
    | .ext _ f => some f
    | .pop => none

theorem dictGet_dictSet {β : Type} (d : List (Nat × β)) (k k2 : Nat) (v : β) :
    dictGet (dictSet d k v) k2 = if k2 = k then some v else dictGet d k2 := by
  by_cases h : k2 = k
  · subst h
    simp [dictGet, dictSet]
  · have hne : (k == k2) = false := by
      simp
      exact fun hEq => h hEq.symm
    simp [dictGet, dictSet, List.find?, hne, h]

/-- Claim C4 counterexample: after `extend([5], frame=1)`,
`extend([6], frame=2)` and one `popleft`, the cursor is 1, strictly
before the end of the 2-byte buffer; the frame whose recorded range
(1, 2) contains the cursor is frame 2, but `current_frame()` still
reports frame 1 (it is updated lazily, only on the next `popleft`). -/
theorem buffer_current_frame_lags :
    (runBufOps Buffer.init [.ext [5] 1, .ext [6] 2, .pop]).map
        (fun b => (b.pop_index, b.buf.length, b.current_frame, dictGet b.frames 2)) =
      .ok (1, 2, some 1, some (1, 2)) := by
  rfl

/-- Inductive invariant for `Buffer` under well-formed use: cursor in
range; `frame` is `None` before the first pop and afterwards names a
frame whose recorded range contains the last popped byte; every
`begin_to_frame` entry points back to a frame whose range begins there
and is non-empty if bytes follow; all ranges sit inside the buffer. -/
def BufInv (b : Buffer) : Prop :=
  b.pop_index ≤ b.buf.length ∧
  (b.pop_index = 0 → b.frame = none) ∧
  (0 < b.pop_index → ∃ f bb ee, b.frame = some f ∧
    dictGet b.frames f = some (bb, ee) ∧
    bb ≤ b.pop_index - 1 ∧ b.pop_index - 1 < ee) ∧
  (∀ p f, dictGet b.begin_to_frame p = some f →
    ∃ ee, dictGet b.frames f = some (p, ee) ∧ (p < b.buf.length → p < ee)) ∧
  (∀ f bb ee, dictGet b.frames f = some (bb, ee) → bb ≤ ee ∧ ee ≤ b.buf.length)

theorem bufInv_init : BufInv Buffer.init := by
  refine ⟨Nat.le_refl 0, fun _ => rfl, ?_, ?_, ?_⟩
  · intro h
    exact absurd h (by decide)
  · intro p f hf
    simp [dictGet, Buffer.init] at hf
  · intro f bb ee hf
    simp [dictGet, Buffer.init] at hf

theorem bufInv_extend {b : Buffer} (batch : List Nat) {f : Nat}
    (hInv : BufInv b) (hfresh : dictGet b.frames f = none) :
    BufInv (b.extend batch (some f)) := by
  obtain ⟨h1, h2, h3, h4, h5⟩ := hInv
  have hbuf : (b.extend batch (some f)).buf = b.buf ++ batch := rfl
  have hpi : (b.extend batch (some f)).pop_index = b.pop_index := rfl
  have hfrm : (b.extend batch (some f)).frame = b.frame := rfl
  have hframes : (b.extend batch (some f)).frames =
      dictSet b.frames f (b.buf.length, (b.buf ++ batch).length) := rfl
  have hb2f : (b.extend batch (some f)).begin_to_frame =
      dictSet b.begin_to_frame b.buf.length f := rfl
  refine ⟨?_, ?_, ?_, ?_, ?_⟩
  · rw [hpi, hbuf, List.length_append]
    omega
  · rw [hpi, hfrm]
    exact h2
  · rw [hpi, hfrm]
    intro hp
    obtain ⟨f0, bb, ee, hf0, hlk, hble, hlt⟩ := h3 hp
    have hne : f0 ≠ f := by
      intro hEq
      rw [hEq, hfresh] at hlk
      cases hlk
    refine ⟨f0, bb, ee, hf0, ?_, hble, hlt⟩
    rw [hframes, dictGet_dictSet]
    simp [hne]
    exact hlk
  · intro p g hg
    rw [hb2f, dictGet_dictSet] at hg
    by_cases hp : p = b.buf.length
    · rw [if_pos hp] at hg
      have hgf : g = f := by
        injection hg with hg2
        exact hg2.symm
      subst hgf
      subst hp
      refine ⟨(b.buf ++ batch).length, ?_, ?_⟩
      · rw [hframes, dictGet_dictSet, if_pos rfl]
      · rw [hbuf]
        intro h
        exact h
    · rw [if_neg hp] at hg
      obtain ⟨ee, hfg, himp⟩ := h4 p g hg
      have hgf : g ≠ f := by
        intro hEq
        rw [hEq, hfresh] at hfg
        cases hfg
      refine ⟨ee, ?_, ?_⟩
      · rw [hframes, dictGet_dictSet, if_neg hgf]
        exact hfg
      · rw [hbuf, List.length_append]
        intro hplt
        by_cases hpl : p < b.buf.length
        · exact himp hpl
        · obtain ⟨hpe, hel⟩ := h5 g p ee hfg
          omega
  · intro g bb ee hg
    rw [hframes, dictGet_dictSet] at hg
    by_cases hgf : g = f
    · rw [if_pos hgf] at hg
      injection hg with hg2
      injection hg2 with hgb hge
      rw [hbuf, ← hgb, ← hge, List.length_append]
      omega
    · rw [if_neg hgf] at hg
      obtain ⟨hbe, hel⟩ := h5 g bb ee hg
      rw [hbuf, List.length_append]
      omega

theorem popleft_shape {b b2 : Buffer} {x : Nat} (h : b.popleft = .ok (x, b2)) :
    b2.buf = b.buf ∧ b2.frames = b.frames ∧ b2.begin_to_frame = b.begin_to_frame ∧
    b2.insert_boundry = b.insert_boundry ∧ b2.pop_index = b.pop_index + 1 ∧
    b.pop_index < b.buf.length ∧ b.popleftUpd = .ok b2.frame := by
  rw [Buffer.popleft] at h
  split at h
  · cases h
  · split at h
    · rename_i hlt
      split at h
      · cases h
      · rename_i fr hupd
        simp only [Except.ok.injEq, Prod.mk.injEq] at h
        obtain ⟨-, hb2⟩ := h
        subst hb2
        exact ⟨rfl, rfl, rfl, rfl, rfl, hlt, hupd⟩
    · cases h

theorem popleftUpd_ok {b : Buffer} {fr : Option Nat}
    (hIA : ∀ p f, dictGet b.begin_to_frame p = some f →
      ∃ ee, dictGet b.frames f = some (p, ee) ∧ (p < b.buf.length → p < ee))
    (hlt : b.pop_index < b.buf.length)
    (h : b.popleftUpd = .ok fr) :
    ∃ f bb ee, fr = some f ∧ dictGet b.frames f = some (bb, ee) ∧
      bb ≤ b.pop_index ∧ b.pop_index < ee := by
  rw [Buffer.popleftUpd] at h
  split at h
  · split at h
    · cases h
    · rename_i f hf
      split at h
      · cases h
      · rename_i bb ee0 hfr
        split at h
        · injection h with h2
          subst h2
          obtain ⟨ee, hfr2, himp⟩ := hIA _ f hf
          exact ⟨f, b.pop_index, ee, rfl, hfr2, Nat.le_refl _, himp hlt⟩
        · cases h
  · split at h
    · cases h
    · rename_i f hf
      split at h
      · cases h
      · rename_i bb ee hfr
        split at h
        · cases h
        · rename_i hbb
          split at h
          · split at h
            · cases h
            · rename_i f2 hf2
              split at h
              · cases h
              · rename_i bb2 ee2raw hfr2
                split at h
                · injection h with h2
                  subst h2
                  obtain ⟨ee2, hfr2b, himp⟩ := hIA _ f2 hf2
                  exact ⟨f2, b.pop_index, ee2, rfl, hfr2b, Nat.le_refl _, himp hlt⟩
                · cases h
          · rename_i hee
            injection h with h2
            subst h2
            have hbb2 : bb ≤ b.pop_index := not_not.mp hbb
            have hee2 : b.pop_index < ee := by omega
            exact ⟨f, bb, ee, rfl, hfr, hbb2, hee2⟩

theorem bufInv_popleft {b b2 : Buffer} {x : Nat} (hInv : BufInv b)
    (h : b.popleft = .ok (x, b2)) : BufInv b2 := by
  obtain ⟨h1, h2, h3, h4, h5⟩ := hInv
  obtain ⟨hbuf, hfr, hb2f, hib, hpi, hlt, hupd⟩ := popleft_shape h
  obtain ⟨f, bb, ee, hfrm, hlk, hble, hlte⟩ := popleftUpd_ok h4 hlt hupd
  refine ⟨?_, ?_, ?_, ?_, ?_⟩
  · rw [hpi, hbuf]
    omega
  · rw [hpi]
    intro hz
    cases hz
  · intro _
    rw [hpi]
    refine ⟨f, bb, ee, hfrm, ?_, by omega, by omega⟩
    rw [hfr]
    exact hlk
  · intro p g hg
    rw [hb2f] at hg
    obtain ⟨ee2, hlk2, himp⟩ := h4 p g hg
    refine ⟨ee2, ?_, ?_⟩
    · rw [hfr]
      exact hlk2
    · rw [hbuf]
      exact himp
  · intro g bbx eex hg
    rw [hfr] at hg
    obtain ⟨hbe, hel⟩ := h5 g bbx eex hg
    rw [hbuf]
    exact ⟨hbe, hel⟩

theorem runBufOps_mono : ∀ (ops : List BufOp) (b b2 : Buffer),
    runBufOps b ops = .ok b2 → b.pop_index ≤ b2.pop_index := by
  intro ops
  induction ops with
  | nil =>
    intro b b2 h
    injection h with h2
    subst h2
    exact Nat.le_refl _
  | cons op rest ih =>
    cases op with
    | ext batch f =>
      intro b b2 h
      have hpi : (b.extend batch (some f)).pop_index = b.pop_index := rfl
      have := ih (b.extend batch (some f)) b2 h
      omega
    | pop =>
      intro b b2 h
      simp only [runBufOps] at h
      split at h
      · cases h
      · rename_i x bmid hpop
        obtain ⟨-, -, -, -, hpi, -, -⟩ := popleft_shape hpop
        have := ih bmid b2 h
        omega

theorem runBufOps_append (l1 l2 : List BufOp) (b : Buffer) :
    runBufOps b (l1 ++ l2) =
      match runBufOps b l1 with
      | .error e => .error e
      | .ok bm => runBufOps bm l2 := by
  induction l1 generalizing b with
  | nil => simp [runBufOps]
  | cons op rest ih =>
    cases op with
    | ext batch f =>
      simp only [List.cons_append, runBufOps]
      exact ih _
    | pop =>
      simp only [List.cons_append, runBufOps]
      split
      · rfl
      · exact ih _

theorem runBufOps_inv : ∀ (ops : List BufOp) (b b2 : Buffer),
    BufInv b → (∀ f, f ∈ extendIds ops → dictGet b.frames f = none) →
    (extendIds ops).Nodup → runBufOps b ops = .ok b2 → BufInv b2 := by
  intro ops
  induction ops with
  | nil =>
    intro b b2 hInv _ _ h
    injection h with h2
    subst h2
    exact hInv
  | cons op rest ih =>
    cases op with
    | ext batch f =>
      intro b b2 hInv hfresh hnodup h
      have hids : extendIds (.ext batch f :: rest) = f :: extendIds rest := rfl
      rw [hids] at hfresh hnodup
      have hf : dictGet b.frames f = none := hfresh f (List.mem_cons_self _ _)
      have hInv2 : BufInv (b.extend batch (some f)) := bufInv_extend batch hInv hf
      have hfresh2 : ∀ g, g ∈ extendIds rest →
          dictGet (b.extend batch (some f)).frames g = none := by
        intro g hg
        have hgf : g ≠ f := by
          intro hEq
          subst hEq
          exact (List.nodup_cons.mp hnodup).1 hg
        have hgn : dictGet b.frames g = none := hfresh g (List.mem_cons_of_mem _ hg)
        have hframes : (b.extend batch (some f)).frames =
            dictSet b.frames f (b.buf.length, (b.buf ++ batch).length) := rfl
        rw [hframes, dictGet_dictSet, if_neg hgf]
        exact hgn
      exact ih _ _ hInv2 hfresh2 (List.nodup_cons.mp hnodup).2 h
    | pop =>
      intro b b2 hInv hfresh hnodup h
      simp only [runBufOps] at h
      split at h
      · cases h
      · rename_i x bmid hpop
        have hInv2 : BufInv bmid := bufInv_popleft hInv hpop
        have hfresh2 : ∀ g, g ∈ extendIds rest → dictGet bmid.frames g = none := by
          intro g hg
          obtain ⟨-, hfr, -, -, -, -, -⟩ := popleft_shape hpop
          rw [hfr]
          exact hfresh g hg
        exact ih bmid b2 hInv2 hfresh2 hnodup h

/-- Claim C4 (amended): for every Buffer built by extends with pairwise
distinct frame ids interleaved with popleft calls, when the run raises
no exception: the cursor satisfies 0 <= cursor <= len(buf) and only ever
advances; `current_frame()` is None before the first popleft, and after
at least one popleft it equals a frame whose recorded half-open byte
range contains cursor - 1, the byte most recently popped.  (The original
claim said the range contains the cursor itself whenever the cursor is
strictly before the end of the buffer; the counterexample shows the
frame is updated lazily and lags by one byte at range boundaries.) -/
theorem buffer_cursor_invariant (ops : List BufOp) (b2 : Buffer)
    (hnodup : (extendIds ops).Nodup) (h : runBufOps Buffer.init ops = .ok b2) :
    b2.pop_index ≤ b2.buf.length ∧
    (∀ ops1 ops2 b1, ops = ops1 ++ ops2 → runBufOps Buffer.init ops1 = .ok b1 →
      b1.pop_index ≤ b2.pop_index) ∧
    (b2.pop_index = 0 → b2.current_frame = none) ∧
    (0 < b2.pop_index → ∃ f bb ee, b2.current_frame = some f ∧
      dictGet b2.frames f = some (bb, ee) ∧
      bb ≤ b2.pop_index - 1 ∧ b2.pop_index - 1 < ee) := by
  have hfresh : ∀ f, f ∈ extendIds ops → dictGet Buffer.init.frames f = none := by
    intro f _
    rfl
  obtain ⟨h1, h2, h3, h4, h5⟩ := runBufOps_inv ops Buffer.init b2 bufInv_init hfresh hnodup h
  refine ⟨h1, ?_, h2, h3⟩
  intro ops1 ops2 b1 hsplit hrun1
  subst hsplit
  rw [runBufOps_append, hrun1] at h
  exact runBufOps_mono ops2 b1 b2 h

/-- Witness for C4 (amended) on the run extend([5], frame=1); popleft. -/
theorem buffer_cursor_invariant_witness :
    (⟨[5], [1], 1, [(1, (0, 1))], [(0, 1)], some 1⟩ : Buffer).pop_index ≤
      (⟨[5], [1], 1, [(1, (0, 1))], [(0, 1)], some 1⟩ : Buffer).buf.length :=
  (buffer_cursor_invariant [.ext [5] 1, .pop]
    ⟨[5], [1], 1, [(1, (0, 1))], [(0, 1)], some 1⟩ (by decide) rfl).1

/-- Pop `n` bytes in sequence (the list comprehensions over `popleft`
in `ftdi_decoder.py`). -/
def Buffer.popN (b : Buffer) : Nat → Except PyErr (List Nat × Buffer)
  | 0 => .ok ([], b)
  | n + 1 =>
    match b.popleft with
    | .error e => .error e
    | .ok (x, b2) =>
      match b2.popN n with
      | .error e => .error e
      | .ok (xs, b3) => .ok (x :: xs, b3)

/-- `FtdiCommandType` from `ftdi_decoder.py`. -/
inductive FtdiCommandType where
  | UNKNOWN
  | CLOCK_TDI
  | CLOCK_TDO
  | CLOCK_TMS
  | SET_GPIO_LOW_BYTE
  | GET_GPIO_LOW_BYTE
  | SET_GPIO_HIGH_BYTE
  | GET_GPIO_HIGH_BYTE
  | DISABLE_LOOPBACK
  | SET_DIVISOR
  | FLUSH
  | DISABLE_DIV_BY_5
  | DISABLE_RCLK
  | CLOCK_NO_DATA
deriving Repr, DecidableEq

/-- Opcode values of `FtdiCommandType`. -/
def FtdiCommandType.val : FtdiCommandType → Nat
  | .UNKNOWN => 0
  | .CLOCK_TDI => 0x10
  | .CLOCK_TDO => 0x20
  | .CLOCK_TMS => 0x40
  | .SET_GPIO_LOW_BYTE => 0x80
  | .GET_GPIO_LOW_BYTE => 0x81
  | .SET_GPIO_HIGH_BYTE => 0x82
  | .GET_GPIO_HIGH_BYTE => 0x83
  | .DISABLE_LOOPBACK => 0x85
  | .SET_DIVISOR => 0x86
  | .FLUSH => 0x87
  | .DISABLE_DIV_BY_5 => 0x8a
  | .DISABLE_RCLK => 0x97
  | .CLOCK_NO_DATA => 0x8f

/-- `FtdiFlags` from `ftdi_decoder.py`. -/
inductive FtdiFlags where
  | NEG_EDGE_OUT
  | BITWISE
  | NEG_EDGE_IN
  | LSB_FIRST
  | TDI_HIGH
deriving Repr, DecidableEq

/-- Flag bit values of `FtdiFlags`. -/
def FtdiFlags.val : FtdiFlags → Nat
  | .NEG_EDGE_OUT => 0x1
  | .BITWISE => 0x2
  | .NEG_EDGE_IN => 0x4
  | .LSB_FIRST => 0x8
  | .TDI_HIGH => 0x80

/-- `get_write_flags(byte)`: the write flags whose bit is set. -/
def get_write_flags (byte : Nat) : List FtdiFlags :=
  [FtdiFlags.NEG_EDGE_OUT, FtdiFlags.BITWISE, FtdiFlags.NEG_EDGE_IN,
   FtdiFlags.LSB_FIRST].filter fun fl => byte &&& fl.val != 0

/-- The `FtdiCommand` namedtuple. -/
structure FtdiCommand where
  type : FtdiCommandType
  flags : Option (List FtdiFlags)
  command_frame : Option Nat
  reply_frame : Option Nat
  opcode : Nat
  length : Option Nat
  data : Option (List Nat)
  reply : Option (List Nat)
deriving Repr, DecidableEq

/-- The `add_command` closure inside `decode_commands`: build the
command record, stamping `command_frame` from the TX buffer and
`reply_frame` from the RX buffer only when a reply was consumed.
(The DecodeError `commands` payload, the list built so far, lives with
the caller and is not part of the error value here.) -/
def add_command (command_type : FtdiCommandType) (command_opcode : Nat)
    (tx rx : Buffer) (flags : Option (List FtdiFlags)) (length : Option Nat)
    (data : Option (List Nat)) (reply : Option (List Nat)) : FtdiCommand :=
  { type := command_type, opcode := command_opcode,
    command_frame := tx.current_frame,
    reply_frame := match reply with | some _ => rx.current_frame | none => none,
    flags := flags, length := length, data := data, reply := reply }

/-- `read_data(byte, ftdi_bytes, ftdi_replies)` from `ftdi_decoder.py`
lines 68-94: bitwise writes read one count byte (+1, at most 7) and one
data byte, byte writes read a 16-bit little-endian count (+1) and that
many data bytes; when the opcode also reads TDO, the same number of
reply bytes is consumed.  Returns (length, data, reply) plus the
advanced buffers. -/
def read_data (byte : Nat) (ftdi_bytes ftdi_replies : Buffer) :
    Except PyErr ((Nat × List Nat × Option (List Nat)) × Buffer × Buffer) :=
  if byte &&& FtdiFlags.BITWISE.val ≠ 0 then
    match ftdi_bytes.popleft with
    | .error e => .error e
    | .ok (n0, tx1) =>
      let number_of_bits := n0 + 1
      if 7 < number_of_bits then
        .error (.decodeError "Bitwise clocking should only clock 7 or less bits"
          (some byte))
      else
        match tx1.popleft with
        | .error e => .error e
        | .ok (d, tx2) =>
          if byte &&& FtdiCommandType.CLOCK_TDO.val ≠ 0 then
            match ftdi_replies.popleft with
            | .error e => .error e
            | .ok (r, rx1) => .ok ((number_of_bits, [d], some [r]), tx2, rx1)
          else .ok ((number_of_bits, [d], none), tx2, ftdi_replies)
  else
    match ftdi_bytes.popleft with
    | .error e => .error e
    | .ok (lo, tx1) =>
      match tx1.popleft with
      | .error e => .error e
      | .ok (hi, tx2) =>
        let number_of_bytes := (lo ||| (hi <<< 8)) + 1
        match tx2.popN number_of_bytes with
        | .error e => .error e
        | .ok (data, tx3) =>
          if byte &&& FtdiCommandType.CLOCK_TDO.val ≠ 0 then
            match ftdi_replies.popN number_of_bytes with
            | .error e => .error e
            | .ok (reply, rx1) => .ok ((number_of_bytes, data, some reply), tx3, rx1)
          else .ok ((number_of_bytes, data, none), tx3, ftdi_replies)

/-- One iteration of the `decode_commands` while-loop from
`ftdi_decoder.py` lines 123-228, after the opcode byte has been popped:
dispatch on the opcode, consume the payload, and emit one command. -/
def decodeStep (byte : Nat) (tx rx : Buffer) :
    Except PyErr (FtdiCommand × Buffer × Buffer) :=
  if byte = 0xaa then
    match rx.popN 2 with
    | .error e => .error e
    | .ok (reply, rx1) =>
      .ok (add_command .UNKNOWN byte tx rx1 none none none (some reply), tx, rx1)
  else if byte = 0xab then
    match rx.popN 2 with
    | .error e => .error e
    | .ok (reply, rx1) =>
      .ok (add_command .UNKNOWN byte tx rx1 none none none (some reply), tx, rx1)
  else if byte = FtdiCommandType.DISABLE_RCLK.val then
    .ok (add_command .DISABLE_RCLK byte tx rx none none none none, tx, rx)
  else if byte &&& FtdiCommandType.CLOCK_TMS.val ≠ 0 then
    if byte &&& FtdiCommandType.CLOCK_TDI.val ≠ 0 then
      .error (.decodeError "When clocking TMS, cannot clock TDI?" (some byte))
    else
      match read_data byte tx rx with
      | .error e => .error e
      | .ok ((length, data, reply), tx1, rx1) =>
        .ok (add_command .CLOCK_TMS byte tx1 rx1 (some (get_write_flags byte))
              (some length) (some data) reply, tx1, rx1)
  else if byte &&& FtdiCommandType.CLOCK_TDI.val ≠ 0 then
    if byte &&& FtdiCommandType.CLOCK_TMS.val ≠ 0 then
      .error (.decodeError "When clocking TDI, cannot clock TMS?" (some byte))
    else
      match read_data byte tx rx with
      | .error e => .error e
      | .ok ((length, data, reply), tx1, rx1) =>
        .ok (add_command .CLOCK_TDI byte tx1 rx1 (some (get_write_flags byte))
              (some length) (some data) reply, tx1, rx1)
  else if byte &&& FtdiCommandType.CLOCK_TDO.val ≠ 0 then
    if byte &&& FtdiCommandType.CLOCK_TMS.val ≠ 0 then .error .assertionError
    else if byte &&& FtdiCommandType.CLOCK_TDI.val ≠ 0 then .error .assertionError
    else if byte &&& FtdiFlags.BITWISE.val ≠ 0 then
      match tx.popleft with
      | .error e => .error e
      | .ok (n0, tx1) =>
        let length := n0 + 1
        if 7 < length then
          .error (.decodeError "Bitwise clocking should only clock 7 or less bits"
            (some byte))
        else
          match rx.popleft with
          | .error e => .error e
          | .ok (r, rx1) =>
            .ok (add_command .CLOCK_TDO byte tx1 rx1 (some (get_write_flags byte))
                  (some length) none (some [r]), tx1, rx1)
    else
      match tx.popleft with
      | .error e => .error e
      | .ok (lo, tx1) =>
        match tx1.popleft with
        | .error e => .error e
        | .ok (hi, tx2) =>
          let length := (lo ||| (hi <<< 8)) + 1
          match rx.popN length with
          | .error e => .error e
          | .ok (reply, rx1) =>
            .ok (add_command .CLOCK_TDO byte tx2 rx1 (some (get_write_flags byte))
                  (some length) none (some reply), tx2, rx1)
  else if byte = FtdiCommandType.CLOCK_NO_DATA.val then
    match tx.popleft with
    | .error e => .error e
    | .ok (lo, tx1) =>
      match tx1.popleft with
      | .error e => .error e
      | .ok (hi, tx2) =>
        let length := (lo ||| (hi <<< 8)) + 1
        .ok (add_command .CLOCK_NO_DATA byte tx2 rx (some []) (some length) none none,
             tx2, rx)
  else if byte = FtdiCommandType.SET_GPIO_LOW_BYTE.val then
    match tx.popN 2 with
    | .error e => .error e
    | .ok (data, tx1) =>
      .ok (add_command .SET_GPIO_LOW_BYTE byte tx1 rx none none (some data) none,
           tx1, rx)
  else if byte = FtdiCommandType.GET_GPIO_LOW_BYTE.val then
    match rx.popleft with
    | .error e => .error e
    | .ok (r, rx1) =>
      .ok (add_command .GET_GPIO_LOW_BYTE byte tx rx1 none none none (some [r]),
           tx, rx1)
  else if byte = FtdiCommandType.SET_GPIO_HIGH_BYTE.val then
    match tx.popN 2 with
    | .error e => .error e
    | .ok (data, tx1) =>
      .ok (add_command .SET_GPIO_HIGH_BYTE byte tx1 rx none none (some data) none,
           tx1, rx)
  else if byte = FtdiCommandType.GET_GPIO_HIGH_BYTE.val then
    match rx.popleft with
    | .error e => .error e
    | .ok (r, rx1) =>
      .ok (add_command .GET_GPIO_HIGH_BYTE byte tx rx1 none none none (some [r]),
           tx, rx1)
  else if byte = FtdiCommandType.DISABLE_LOOPBACK.val then
    .ok (add_command .DISABLE_LOOPBACK byte tx rx none none none none, tx, rx)
  else if byte = FtdiCommandType.SET_DIVISOR.val then
    match tx.popleft with
    | .error e => .error e
    | .ok (lo, tx1) =>
      match tx1.popleft with
      | .error e => .error e
      | .ok (hi, tx2) =>
        .ok (add_command .SET_DIVISOR byte tx2 rx none none (some [lo ||| (hi <<< 8)])
              none, tx2, rx)
  else if byte = FtdiCommandType.FLUSH.val then
    if !rx.at_boundry then
      .error (.decodeError "Should have a RX boundry in reply data?" (some byte))
    else
      .ok (add_command .FLUSH byte tx rx none none none none, tx, rx)
  else if byte = FtdiCommandType.DISABLE_DIV_BY_5.val then
    .ok (add_command .DISABLE_DIV_BY_5 byte tx rx none none none none, tx, rx)
  else .error (.decodeError "Unknown byte" (some byte))

/-- Claim C10: when `decode_commands` reads the opcode 0x87 (FLUSH), it
raises DecodeError exactly when the RX reply-buffer cursor is not on a
recorded insertion boundary; when the cursor is at a boundary it emits a
FLUSH command and consumes no RX bytes (the buffers are returned
untouched). -/
theorem flush_requires_rx_boundary (tx rx : Buffer) :
    decodeStep 0x87 tx rx =
      if rx.at_boundry then
        .ok ({ type := .FLUSH, flags := none, command_frame := tx.current_frame,
               reply_frame := none, opcode := 0x87, length := none, data := none,
               reply := none }, tx, rx)
      else
        .error (.decodeError "Should have a RX boundry in reply data?" (some 0x87)) := by
  by_cases h : rx.at_boundry <;>
    simp [decodeStep, FtdiCommandType.val, FtdiFlags.val, add_command, h,
      show (135 &&& 64 : Nat) = 0 from rfl, show (135 &&& 16 : Nat) = 0 from rfl,
      show (135 &&& 32 : Nat) = 0 from rfl]

theorem popleftUpd_error_cases {b : Buffer} {e : PyErr} (h : b.popleftUpd = .error e) :
    e = .keyError ∨ e = .assertionError := by
  rw [Buffer.popleftUpd] at h
  split at h
  all_goals (repeat' split at h)
  all_goals
    first
      | (injection h with h2; subst h2; exact Or.inl rfl)
      | (injection h with h2; subst h2; exact Or.inr rfl)
      | cases h

theorem popleft_error_cases {b : Buffer} {e : PyErr} (h : b.popleft = .error e) :
    e = .indexError ∨ e = .keyError ∨ e = .assertionError := by
  rw [Buffer.popleft] at h
  split at h
  · injection h with h2
    subst h2
    exact Or.inr (Or.inr rfl)
  · split at h
    · split at h
      · rename_i e2 hupd
        injection h with h2
        subst h2
        rcases popleftUpd_error_cases hupd with h3 | h3
        · exact Or.inr (Or.inl h3)
        · exact Or.inr (Or.inr h3)
      · cases h
    · injection h with h2
      subst h2
      exact Or.inl rfl

theorem popN_error_cases {e : PyErr} : ∀ (n : Nat) (b : Buffer),
    b.popN n = .error e → e = .indexError ∨ e = .keyError ∨ e = .assertionError := by
  intro n
  induction n with
  | zero => intro b h; cases h
  | succ n ih =>
    intro b h
    simp only [Buffer.popN] at h
    split at h
    · rename_i e2 hpop
      injection h with h2
      subst h2
      exact popleft_error_cases hpop
    · rename_i p hpop
      split at h
      · rename_i e2 hN
        injection h with h2
        subst h2
        exact ih _ hN
      · cases h

/-- Claim C2 counterexample: a bitwise CLOCK_TMS command (opcode 0x4B)
whose raw count byte is 7 decodes the length 7 + 1 = 8 and raises
DecodeError; the claim said length 8 is the maximum accepted. -/
theorem bitwise_length_eight_rejected :
    read_data 0x4B (Buffer.init.extend [7, 0] (some 1)) Buffer.init =
      .error (.decodeError "Bitwise clocking should only clock 7 or less bits"
        (some 0x4B)) := by
  rfl

/-- Claim C2 (amended): for every bitwise clocking command (BITWISE bit
0x02 set, on CLOCK_TMS and CLOCK_TDI via `read_data`, and on the
read-only CLOCK_TDO path of `decode_commands`), the bit count is the
next TX byte plus 1; counts up to 7 (raw byte at most 6) are accepted —
no DecodeError is possible — and counts of 8 or more (raw byte at least
7) raise DecodeError.  (The original claim put the boundary at 8.) -/
theorem bitwise_length_le_seven :
    (∀ (byte : Nat) (tx rx : Buffer) (n0 : Nat) (tx1 : Buffer),
      byte &&& FtdiFlags.BITWISE.val ≠ 0 →
      tx.popleft = .ok (n0, tx1) →
      ((6 < n0 →
        read_data byte tx rx =
          .error (.decodeError "Bitwise clocking should only clock 7 or less bits"
            (some byte))) ∧
       (n0 ≤ 6 →
        (∀ m lb, read_data byte tx rx ≠ .error (.decodeError m lb)) ∧
        (∀ res, read_data byte tx rx = .ok res → res.1.1 = n0 + 1)))) ∧
    (∀ (byte : Nat) (tx rx : Buffer) (n0 : Nat) (tx1 : Buffer),
      byte ≠ 0xaa → byte ≠ 0xab → byte ≠ 0x97 →
      byte &&& FtdiCommandType.CLOCK_TMS.val = 0 →
      byte &&& FtdiCommandType.CLOCK_TDI.val = 0 →
      byte &&& FtdiCommandType.CLOCK_TDO.val ≠ 0 →
      byte &&& FtdiFlags.BITWISE.val ≠ 0 →
      tx.popleft = .ok (n0, tx1) →
      ((6 < n0 →
        decodeStep byte tx rx =
          .error (.decodeError "Bitwise clocking should only clock 7 or less bits"
            (some byte))) ∧
       (n0 ≤ 6 →
        (∀ m lb, decodeStep byte tx rx ≠ .error (.decodeError m lb)) ∧
        (∀ res, decodeStep byte tx rx = .ok res → res.1.length = some (n0 + 1))))) := by
  constructor
  · intro byte tx rx n0 tx1 hbw hpop
    have hred0 : read_data byte tx rx =
        (if 7 < n0 + 1 then
          .error (.decodeError "Bitwise clocking should only clock 7 or less bits"
            (some byte))
        else
          match tx1.popleft with
          | .error e => .error e
          | .ok (d, tx2) =>
            if byte &&& FtdiCommandType.CLOCK_TDO.val ≠ 0 then
              match rx.popleft with
              | .error e => .error e
              | .ok (r, rx1) => .ok ((n0 + 1, [d], some [r]), tx2, rx1)
            else .ok ((n0 + 1, [d], none), tx2, rx)) := by
      simp only [read_data, if_pos hbw, hpop]
    constructor
    · intro h6
      rw [hred0, if_pos (by omega : 7 < n0 + 1)]
    · intro h6
      rw [hred0, if_neg (by omega : ¬ 7 < n0 + 1)]
      constructor
      · intro m lb
        cases h2 : tx1.popleft with
        | error e =>
          intro hc
          injection hc with hc2
          rcases popleft_error_cases h2 with h3 | h3 | h3 <;>
            (rw [h3] at hc2; cases hc2)
        | ok p =>
          obtain ⟨d, tx2⟩ := p
          by_cases htdo : byte &&& FtdiCommandType.CLOCK_TDO.val ≠ 0
          · simp only [if_pos htdo]
            cases h3 : rx.popleft with
            | error e =>
              intro hc
              injection hc with hc2
              rcases popleft_error_cases h3 with h4 | h4 | h4 <;>
                (rw [h4] at hc2; cases hc2)
            | ok q =>
              intro hc
              cases hc
          · simp only [if_neg htdo]
            intro hc
            cases hc
      · intro res
        cases h2 : tx1.popleft with
        | error e =>
          intro hc
          cases hc
        | ok p =>
          obtain ⟨d, tx2⟩ := p
          by_cases htdo : byte &&& FtdiCommandType.CLOCK_TDO.val ≠ 0
          · simp only [if_pos htdo]
            cases h3 : rx.popleft with
            | error e =>
              intro hc
              cases hc
            | ok q =>
              obtain ⟨r, rx1⟩ := q
              intro hc
              injection hc with hc2
              rw [← hc2]
          · simp only [if_neg htdo]
            intro hc
            injection hc with hc2
            rw [← hc2]
  · intro byte tx rx n0 tx1 haa hab h97 htms htdi htdo hbw hpop
    have hred0 : decodeStep byte tx rx =
        (if 7 < n0 + 1 then
          .error (.decodeError "Bitwise clocking should only clock 7 or less bits"
            (some byte))
        else
          match rx.popleft with
          | .error e => .error e
          | .ok (r, rx1) =>
            .ok (add_command .CLOCK_TDO byte tx1 rx1 (some (get_write_flags byte))
                  (some (n0 + 1)) none (some [r]), tx1, rx1)) := by
      simp only [decodeStep, if_neg haa, if_neg hab,
        if_neg (show ¬ byte = FtdiCommandType.DISABLE_RCLK.val from h97),
        if_neg (show ¬ byte &&& FtdiCommandType.CLOCK_TMS.val ≠ 0 from not_not_intro htms),
        if_neg (show ¬ byte &&& FtdiCommandType.CLOCK_TDI.val ≠ 0 from not_not_intro htdi),
        if_pos htdo, if_pos hbw, hpop]
    constructor
    · intro h6
      rw [hred0, if_pos (by omega : 7 < n0 + 1)]
    · intro h6
      rw [hred0, if_neg (by omega : ¬ 7 < n0 + 1)]
      constructor
      · intro m lb
        cases h3 : rx.popleft with
        | error e =>
          intro hc
          injection hc with hc2
          rcases popleft_error_cases h3 with h4 | h4 | h4 <;>
            (rw [h4] at hc2; cases hc2)
        | ok q =>
          intro hc
          cases hc
      · intro res
        cases h3 : rx.popleft with
        | error e =>
          intro hc
          cases hc
        | ok q =>
          obtain ⟨r, rx1⟩ := q
          intro hc
          injection hc with hc2
          rw [← hc2]
          rfl

/-- Witness for C2 (amended): opcode 0x4B with raw count byte 7 is
rejected with the bitwise-length DecodeError. -/
theorem bitwise_length_le_seven_witness :
    read_data 0x4B (Buffer.init.extend [7, 0] (some 1)) Buffer.init =
      .error (.decodeError "Bitwise clocking should only clock 7 or less bits"
        (some 0x4B)) :=
  (bitwise_length_le_seven.1 0x4B (Buffer.init.extend [7, 0] (some 1)) Buffer.init 7
    ⟨[7, 0], [2], 1, [(1, (0, 2))], [(0, 1)], some 1⟩ (by decide) rfl).1
    (by decide)

/-- `FTDI_MAX_PACKET_SIZE` from `pcap_reader.py`. -/
def FTDI_MAX_PACKET_SIZE : Nat := 512

/-- The RX-coalescing loop of `pcap_json_reader` (`pcap_reader.py` lines
26-39): while at least 512 bytes remain, keep 512 bytes and then skip 2
modem-status bytes; a final remainder shorter than 512 is kept verbatim. -/
def coalesce_rx (l : List Nat) : List Nat :=
  if FTDI_MAX_PACKET_SIZE ≤ l.length then
    l.take FTDI_MAX_PACKET_SIZE ++ coalesce_rx (l.drop (FTDI_MAX_PACKET_SIZE + 2))
  else l
termination_by l.length
decreasing_by
  simp only [List.length_drop, FTDI_MAX_PACKET_SIZE] at *
  omega

/-- Claim C5 counterexample: a 513-byte RX payload loses its final byte.
After keeping the first 512 bytes, the cursor skips 2 modem-status
bytes, overshooting the single remaining byte, so a trailing 7 never
reaches the reply buffer — the claim said the last byte is appended. -/
theorem coalesce_513_drops_final_byte :
    coalesce_rx (List.replicate 512 0 ++ [7]) = List.replicate 512 0 ∧
    ¬ 7 ∈ coalesce_rx (List.replicate 512 0 ++ [7]) := by
  have hlen : (List.replicate 512 0 ++ [7] : List Nat).length = 513 := by
    rw [List.length_append, List.length_replicate]
    rfl
  have h512 : FTDI_MAX_PACKET_SIZE = 512 := rfl
  have h1 : coalesce_rx (List.replicate 512 0 ++ [7]) = List.replicate 512 0 := by
    rw [coalesce_rx, if_pos (by omega)]
    have hd : (List.replicate 512 0 ++ [7] : List Nat).drop (FTDI_MAX_PACKET_SIZE + 2) = [] := by
      refine List.drop_eq_nil_iff.mpr ?_
      omega
    rw [hd, coalesce_rx, if_neg (by simp [h512])]
    rw [h512, List.take_append_of_le_length (by rw [List.length_replicate]),
      List.append_nil, List.take_replicate, Nat.min_self]
  refine ⟨h1, ?_⟩
  rw [h1]
  intro hmem
  rw [List.mem_replicate] at hmem
  exact absurd hmem.2 (by decide)

/-- Claim C5 (amended): coalescing an RX payload of exactly 513 bytes
keeps the first 512 bytes only; the 513th byte is consumed by the
2-byte modem-status skip (which overshoots the payload end) and is
dropped, so only the first 512 bytes reach the reply buffer. -/
theorem coalesce_513_keeps_first_512 (l : List Nat) (h : l.length = 513) :
    coalesce_rx l = l.take 512 := by
  have h512 : FTDI_MAX_PACKET_SIZE = 512 := rfl
  rw [coalesce_rx, if_pos (by omega)]
  have hd : l.drop (FTDI_MAX_PACKET_SIZE + 2) = [] := by
    refine List.drop_eq_nil_iff.mpr ?_
    omega
  rw [hd, coalesce_rx, if_neg (by simp [h512]), List.append_nil, h512]

/-- Witness for C5 (amended) on the constant 513-byte payload. -/
theorem coalesce_513_keeps_first_512_witness :
    coalesce_rx (List.replicate 513 3) = (List.replicate 513 3).take 512 :=
  coalesce_513_keeps_first_512 (List.replicate 513 3) (by rw [List.length_replicate])

/-- `DrState` from `dr_states.py`. -/
inductive DrState where
  | BYPASS
  | IDCODE
  | JTAG_CTRL
  | JTAG_STATUS
  | ABORT
  | DPACC
  | APACC
  | PS_IDCODE_DEVICE_ID
  | PMU_MDM
  | ERROR_STATUS
  | IP_DISABLE
  | UNKNOWN_STATE_9FF
  | USER1
  | USER2
  | USER3
  | USER4
  | CFG_OUT
  | CFG_IN
  | JPROGRAM
  | ISC_NOOP
  | FUSE_DNA
  | JSTART
deriving Repr, DecidableEq

/-- `ArmDapJtagModel` state from `arm_jtag_models.py`.  `__init__` sets
`self.enabled = False`, but `update_ir` reads `self.enable`, an
attribute that only `reset()` ever assigns; `enable : Option Bool` is
`none` while that attribute does not exist (reading it then raises
AttributeError). -/
structure ArmDapJtagModel where
  ir : ShiftRegister
  dr : Option ShiftRegister
  dap_state : DrState
  will_enable : Bool
  enabled : Bool
  enable : Option Bool
deriving Repr, DecidableEq

/-- `ArmDapJtagModel.__init__(dr_cb, initial_will_enable, verbose)`. -/
def ArmDapJtagModel.init (initial_will_enable : Bool) : ArmDapJtagModel :=
  { ir := ShiftRegister.init 4, dr := none, dap_state := .BYPASS,
    will_enable := initial_will_enable, enabled := false, enable := none }

/-- `ArmDapJtagModel.shift_dr(tdi)`: shift the selected DR
(`self.dr.shift` raises AttributeError when no DR has been captured). -/
def ArmDapJtagModel.shift_dr (m : ArmDapJtagModel) (tdi : Nat) :
    Except PyErr (ArmDapJtagModel × Nat) :=
  match m.dr with
  | none => .error .attributeError
  | some dr =>
    match dr.shift tdi with
    | .error e => .error e
    | .ok (tdo, dr2) => .ok ({ m with dr := some dr2 }, tdo)

/-- `ArmDapJtagModel.shift_ir(tdi)`. -/
def ArmDapJtagModel.shift_ir (m : ArmDapJtagModel) (tdi : Nat) :
    Except PyErr (ArmDapJtagModel × Nat) :=
  match m.ir.shift tdi with
  | .error e => .error e
  | .ok (tdo, ir2) => .ok ({ m with ir := ir2 }, tdo)

/-- `ArmDapJtagModel.update_dr()`: read the DR and invoke `dr_cb` with
(dap_state, value); the callback invocation is the returned event. -/
def ArmDapJtagModel.update_dr (m : ArmDapJtagModel) :
    Except PyErr (ArmDapJtagModel × (DrState × Nat)) :=
  match m.dr with
  | none => .error .attributeError
  | some dr => .ok (m, (m.dap_state, dr.read))

/-- `ArmDapJtagModel.capture_ir()`: load the standard capture value 0x01. -/
def ArmDapJtagModel.capture_ir (m : ArmDapJtagModel) :
    Except PyErr ArmDapJtagModel :=
  match m.ir.load 0x01 with
  | .error e => .error e
  | .ok ir2 => .ok { m with ir := ir2 }

/-- `ArmDapJtagModel.capture_dr()`: allocate the DR for the selected
state (BYPASS=1 loaded 0, IDCODE=32 loaded 0x5ba00477,
ABORT/DPACC/APACC=35); any other state asserts. -/
def ArmDapJtagModel.capture_dr (m : ArmDapJtagModel) :
    Except PyErr ArmDapJtagModel :=
  match m.dap_state with
  | .BYPASS =>
    match (ShiftRegister.init 1).load 0x0 with
    | .error e => .error e
    | .ok dr => .ok { m with dr := some dr }
  | .IDCODE =>
    match (ShiftRegister.init 32).load 0x5ba00477 with
    | .error e => .error e
    | .ok dr => .ok { m with dr := some dr }
  | .ABORT => .ok { m with dr := some (ShiftRegister.init 35) }
  | .DPACC => .ok { m with dr := some (ShiftRegister.init 35) }
  | .APACC => .ok { m with dr := some (ShiftRegister.init 35) }
  | _ => .error .assertionError

/-- `ArmDapJtagModel.update_ir()`: read the IR; `if self.enable:` raises
AttributeError when `reset()` has never run; when enabled, map the five
known IR codes to DR states and assert on anything else; when not
enabled, select BYPASS regardless of the IR value. -/
def ArmDapJtagModel.update_ir (m : ArmDapJtagModel) :
    Except PyErr ArmDapJtagModel :=
  let ir := m.ir.read
  match m.enable with
  | none => .error .attributeError
  | some en =>
    if en then
      if ir = 0b1000 then .ok { m with dap_state := .ABORT }
      else if ir = 0b1010 then .ok { m with dap_state := .DPACC }
      else if ir = 0b1011 then .ok { m with dap_state := .APACC }
      else if ir = 0b1110 then .ok { m with dap_state := .IDCODE }
      else if ir = 0b1111 then .ok { m with dap_state := .BYPASS }
      else .error .assertionError
    else .ok { m with dap_state := .BYPASS }

/-- `ArmDapJtagModel.reset()`: latch `will_enable` into `enable` and
select IDCODE (enabled) or BYPASS (disabled). -/
def ArmDapJtagModel.reset (m : ArmDapJtagModel) : ArmDapJtagModel :=
  if m.will_enable then { m with enable := some true, dap_state := .IDCODE }
  else { m with enable := some false, dap_state := .BYPASS }

/-- `ArmDapJtagModel.set_enable(enable)`. -/
def ArmDapJtagModel.set_enable (m : ArmDapJtagModel) (enable : Bool) :
    ArmDapJtagModel :=
  { m with will_enable := enable }

/-- `ArmDapJtagModel.run_idle()`. -/
def ArmDapJtagModel.run_idle (m : ArmDapJtagModel) : ArmDapJtagModel := m

/-- Claim C3 is wrong about the code (code bug): immediately after
construction, before any RESET, an IRUPDATE does not succeed — it
raises AttributeError, because `update_ir` reads `self.enable` while
`__init__` only ever sets `self.enabled` (the flag `reset()` would
latch).  After a reset the disabled model does select BYPASS for any
IR value, which is the documented intent. -/
theorem dap_update_ir_before_reset_raises :
    (ArmDapJtagModel.init false).update_ir = .error .attributeError ∧
    (ArmDapJtagModel.init false).enabled = false ∧
    ((ArmDapJtagModel.init false).reset).update_ir =
      .ok { ir := ShiftRegister.init 4, dr := none, dap_state := .BYPASS,
            will_enable := false, enabled := false, enable := some false } := by
  refine ⟨rfl, rfl, rfl⟩

/-- The `ArmDebugCommand` callback invocations of `ArmDebugModel`,
with their keyword arguments. -/
inductive DapEvent where
  | ABORT (value : Nat)
  | READ_DP_REGISTER (reg : Nat)
  | WRITE_DP_REGISTER (reg : Nat) (value : Nat)
  | READ_AP_REGISTER (ap_num : Option Nat) (reg : Nat)
  | WRITE_AP_REGISTER (ap_num : Option Nat) (reg : Nat) (value : Nat)
deriving Repr, DecidableEq

/-- `ArmDebugModel` banked-select state from `arm_jtag_models.py`:
`apsel = None` until a SELECT write, bank selectors start at 0. -/
structure ArmDebugModel where
  apsel : Option Nat
  apbanksel : Nat
  dpbanksel : Nat
deriving Repr, DecidableEq

/-- `ArmDebugModel.__init__(callback)`. -/
def ArmDebugModel.init : ArmDebugModel :=
  { apsel := none, apbanksel := 0, dpbanksel := 0 }

/-- `ArmDebugModel.dr_access(dr_state, dr_value)` from
`arm_jtag_models.py` lines 158-207: decode a DPACC/APACC scan into
RnW / A / datain and dispatch per the DPv2 address map; callback
invocations become the returned event list. -/
def ArmDebugModel.dr_access (m : ArmDebugModel) (dr_state : DrState) (dr_value : Nat) :
    Except PyErr (ArmDebugModel × List DapEvent) :=
  if dr_state = .ABORT then .ok (m, [.ABORT dr_value])
  else if dr_state = .IDCODE then .ok (m, [])
  else if dr_state = .BYPASS then .ok (m, [])
  else if dr_state = .APACC ∨ dr_state = .DPACC then
    let RnW : Bool := dr_value &&& 0x1 != 0
    let A := ((dr_value >>> 1) &&& 0x3) <<< 2
    let datain := (dr_value >>> 3) &&& 0xFFFFFFFF
    if dr_state = .DPACC ∧ A = 0x0 then
      if RnW then .ok (m, [.READ_DP_REGISTER A]) else .error .assertionError
    else if dr_state = .DPACC ∧ A = 0x8 then
      if RnW then .error .assertionError
      else
        .ok ({ apsel := some (datain >>> 24), dpbanksel := datain &&& 0xF,
               apbanksel := (datain >>> 4) &&& 0xF }, [])
    else if dr_state = .DPACC ∧ A = 0x4 then
      let dpreg := (m.dpbanksel <<< 4) ||| A
      if RnW then .ok (m, [.READ_DP_REGISTER dpreg])
      else .ok (m, [.WRITE_DP_REGISTER dpreg datain])
    else if dr_state = .DPACC ∧ A = 0xC then
      if RnW then .ok (m, [.READ_DP_REGISTER A]) else .error .assertionError
    else if dr_state = .APACC then
      let apreg := (m.apbanksel <<< 4) ||| A
      if RnW then .ok (m, [.READ_AP_REGISTER m.apsel apreg])
      else .ok (m, [.WRITE_AP_REGISTER m.apsel apreg datain])
    else .error .assertionError
  else .error .assertionError

/-- Claim C6: a DPACC access decoding to A == 8 (SELECT) must be a
write (a read asserts); a write updates the banked-select state to
apsel = datain >> 24, dpbanksel = datain & 0xF,
apbanksel = (datain >> 4) & 0xF, and emits no DP/AP event; for
datain = 0x13 (DR value 0x9C) this yields apsel = 0, apbanksel = 0x1,
dpbanksel = 0x3. -/
theorem dpacc_select_write (v : Nat) (m : ArmDebugModel)
    (hA : (v >>> 1) &&& 0x3 = 2) :
    (v &&& 0x1 ≠ 0 → m.dr_access .DPACC v = .error .assertionError) ∧
    (v &&& 0x1 = 0 → m.dr_access .DPACC v =
      .ok ({ apsel := some (((v >>> 3) &&& 0xFFFFFFFF) >>> 24),
             apbanksel := (((v >>> 3) &&& 0xFFFFFFFF) >>> 4) &&& 0xF,
             dpbanksel := ((v >>> 3) &&& 0xFFFFFFFF) &&& 0xF }, [])) ∧
    ArmDebugModel.init.dr_access .DPACC 0x9C =
      .ok ({ apsel := some 0, apbanksel := 0x1, dpbanksel := 0x3 }, []) := by
  have hA8 : ((v >>> 1) &&& 0x3) <<< 2 = 8 := by
    rw [hA]
    rfl
  refine ⟨?_, ?_, by rfl⟩
  · intro hRnW
    simp [ArmDebugModel.dr_access, hA8]
    rw [Nat.and_one_is_mod] at hRnW
    omega
  · intro hRnW
    simp [ArmDebugModel.dr_access, hA8]
    rw [Nat.and_one_is_mod] at hRnW
    omega

/-- Witness for C6: the SELECT write with DR value 0x9C. -/
theorem dpacc_select_write_witness :
    ArmDebugModel.init.dr_access .DPACC 0x9C =
      .ok ({ apsel := some (((0x9C >>> 3) &&& 0xFFFFFFFF) >>> 24),
             apbanksel := (((0x9C >>> 3) &&& 0xFFFFFFFF) >>> 4) &&& 0xF,
             dpbanksel := ((0x9C >>> 3) &&& 0xFFFFFFFF) &&& 0xF }, []) :=
  (dpacc_select_write 0x9C ArmDebugModel.init (by decide)).2.1 (by decide)

/-- `ArmMemApAutoIncrement` (Table 7-1 AddrInc values) from
`arm_jtag_models.py`. -/
inductive ArmMemApAutoIncrement where
  | Off
  | Single
  | Packed
deriving Repr, DecidableEq

/-- The `ApMsg` constructors mirror the result strings `read_register` /
`write_register` build: `plain` for the constant messages, and
`reading`/`writing` for the formatted memory-access messages, carrying
the format arguments (bit width, address, value), whether the 16-digit
64-bit format was chosen (`wide`, i.e. `tar_high != 0`), and the bit
count of the appended auto-increment suffix (`none` for the empty
suffix). -/
inductive ApMsg where
  | plain (s : String)
  | reading (bits : Nat) (addr : Nat) (wide : Bool) (incBits : Option Nat)
  | writing (bits : Nat) (addr : Nat) (value : Nat) (wide : Bool) (incBits : Option Nat)
deriving Repr, DecidableEq

/-- `ArmMemApModel` state: `tar_low = None`, `tar_high = 0x0`,
`width = None`, `auto_increment = None` at construction. -/
structure ArmMemApModel where
  tar_low : Option Nat
  tar_high : Nat
  width : Option Nat
  auto_increment : Option ArmMemApAutoIncrement
deriving Repr, DecidableEq

/-- `ArmMemApModel.__init__`. -/
def ArmMemApModel.init : ArmMemApModel :=
  { tar_low := none, tar_high := 0x0, width := none, auto_increment := none }

/-- `ArmMemApModel.auto_increment_tar()` (`arm_jtag_models.py` lines
238-260): assert the transfer state is configured; Off returns the
empty suffix; Single adds `width` to the 64-bit TAR and stores it back
masked into the two halves, returning the suffix bit count; Packed
raises NotImplementedError. -/
def ArmMemApModel.auto_increment_tar (m : ArmMemApModel) :
    Except PyErr (Option Nat × ArmMemApModel) :=
  match m.tar_low, m.width, m.auto_increment with
  | some lo, some w, some inc =>
    match inc with
    | .Off => .ok (none, m)
    | .Single =>
      let tar := ((m.tar_high <<< 32) ||| lo) + w
      .ok (some (w * 8),
        { m with tar_low := some (tar &&& 0xFFFFFFFF),
                 tar_high := (tar >>> 32) &&& 0xFFFFFFFF })
    | .Packed => .error (.notImplementedError "Packed auto-increment not implemented")
  | _, _, _ => .error .assertionError

/-- `ArmMemApModel.read_banked(offset)`: banked read at
`(TAR & ~0xF) | offset`; requires a 4-byte width. -/
def ArmMemApModel.read_banked (m : ArmMemApModel) (offset : Nat) :
    Except PyErr (ApMsg × ArmMemApModel) :=
  match m.tar_low with
  | none => .error .assertionError
  | some lo =>
    match m.width with
    | none => .error .assertionError
    | some w =>
      if w ≠ 4 then .error .assertionError
      else if ¬ (offset = 0x0 ∨ offset = 0x4 ∨ offset = 0x8 ∨ offset = 0xC) then
        .error .assertionError
      else
        let tar := (m.tar_high <<< 32) ||| lo
        let address := (tar &&& 0xFFFFFFF0) ||| offset
        .ok (.reading (w * 8) address (m.tar_high != 0) none, m)

/-- `ArmMemApModel.write_banked(offset, value)`. -/
def ArmMemApModel.write_banked (m : ArmMemApModel) (offset value : Nat) :
    Except PyErr (ApMsg × ArmMemApModel) :=
  match m.tar_low with
  | none => .error .assertionError
  | some lo =>
    match m.width with
    | none => .error .assertionError
    | some w =>
      if w ≠ 4 then .error .assertionError
      else if ¬ (offset = 0x0 ∨ offset = 0x4 ∨ offset = 0x8 ∨ offset = 0xC) then
        .error .assertionError
      else
        let tar := (m.tar_high <<< 32) ||| lo
        let address := (tar &&& 0xFFFFFFF0) ||| offset
        .ok (.writing (w * 8) address value (m.tar_high != 0) none, m)

/-- `ArmMemApModel.read_register(reg)` (`arm_jtag_models.py` lines
296-343): DRW reads report the access at the current TAR (short format
when `tar_high == 0`) and then auto-increment; unknown registers raise
ValueError (the `ArmMemApRegister(reg)` conversion). -/
def ArmMemApModel.read_register (m : ArmMemApModel) (reg : Nat) :
    Except PyErr (ApMsg × ArmMemApModel) :=
  if reg = 0x0 then .ok (.plain "Read MEM-AP CSW", m)
  else if reg = 0x4 then .ok (.plain "Read MEM-AP TAR[31:0]", m)
  else if reg = 0x8 then .ok (.plain "Read MEM-AP TAR[63:32]", m)
  else if reg = 0xC then
    match m.tar_low, m.width, m.auto_increment with
    | some lo, some w, some _ =>
      let addr := if m.tar_high = 0 then lo else (m.tar_high <<< 32) ||| lo
      match m.auto_increment_tar with
      | .error e => .error e
      | .ok (inc, m2) => .ok (.reading (w * 8) addr (m.tar_high != 0) inc, m2)
    | _, _, _ => .error .assertionError
  else if reg = 0x10 then m.read_banked 0x0
  else if reg = 0x14 then m.read_banked 0x4
  else if reg = 0x18 then m.read_banked 0x8
  else if reg = 0x1C then m.read_banked 0xC
  else if reg = 0x20 then .error (.notImplementedError "MBT not implemented")
  else if reg = 0xF0 then .ok (.plain "Read MEM-AP BASE", m)
  else if reg = 0xF4 then .ok (.plain "Read MEM-AP CFG", m)
  else if reg = 0xF8 then .ok (.plain "Read MEM-AP BASE_HIGH", m)
  else if reg = 0xFC then .ok (.plain "Read MEM-AP IDR", m)
  else .error .valueError

/-- `ArmMemApModel.write_register(reg, value)` (`arm_jtag_models.py`
lines 345-422): CSW decodes the size field into the width, bits 5-4
into the auto-increment mode (value 3 raises ValueError via the Enum
conversion) and requires mode bits 11-8 to be zero; TAR/TAR_HIGH store
the halves; DRW reports the write and auto-increments; the RO
registers raise RuntimeError. -/
def ArmMemApModel.write_register (m : ArmMemApModel) (reg value : Nat) :
    Except PyErr (Option ApMsg × ArmMemApModel) :=
  if reg = 0x0 then
    match (if value &&& 0x7 = 0b000 then some 1
           else if value &&& 0x7 = 0b001 then some 2
           else if value &&& 0x7 = 0b010 then some 4
           else if value &&& 0x7 = 0b011 then some 8
           else if value &&& 0x7 = 0b100 then some 16
           else if value &&& 0x7 = 0b101 then some 32
           else none) with
    | none => .error .assertionError
    | some w =>
      match (if (value >>> 4) &&& 0x3 = 0 then some ArmMemApAutoIncrement.Off
             else if (value >>> 4) &&& 0x3 = 1 then some ArmMemApAutoIncrement.Single
             else if (value >>> 4) &&& 0x3 = 2 then some ArmMemApAutoIncrement.Packed
             else none) with
      | none => .error .valueError
      | some inc =>
        if (value >>> 8) &&& 0xF ≠ 0 then
          .error (.notImplementedError "Barrier support not implemented.")
        else .ok (none, { m with width := some w, auto_increment := some inc })
  else if reg = 0x4 then .ok (none, { m with tar_low := some value })
  else if reg = 0x8 then .ok (none, { m with tar_high := value })
  else if reg = 0xC then
    match m.tar_low, m.width, m.auto_increment with
    | some lo, some w, some _ =>
      let addr := if m.tar_high = 0 then lo else (m.tar_high <<< 32) ||| lo
      match m.auto_increment_tar with
      | .error e => .error e
      | .ok (inc, m2) =>
        .ok (some (.writing (w * 8) addr value (m.tar_high != 0) inc), m2)
    | _, _, _ => .error .assertionError
  else if reg = 0x10 then (m.write_banked 0x0 value).map fun p => (some p.1, p.2)
  else if reg = 0x14 then (m.write_banked 0x4 value).map fun p => (some p.1, p.2)
  else if reg = 0x18 then (m.write_banked 0x8 value).map fun p => (some p.1, p.2)
  else if reg = 0x1C then (m.write_banked 0xC value).map fun p => (some p.1, p.2)
  else if reg = 0x20 then .error (.notImplementedError "MBT not implemented")
  else if reg = 0xF0 then .error (.runtimeError "Writing a RO register!")
  else if reg = 0xF4 then .error (.runtimeError "Writing a RO register!")
  else if reg = 0xF8 then .error (.runtimeError "Writing a RO register!")
  else if reg = 0xFC then .error (.runtimeError "Writing a RO register!")
  else .error .valueError

/-- Driver: N successive DRW reads, collecting the reported messages. -/
def ArmMemApModel.drwReads (m : ArmMemApModel) :
    Nat → Except PyErr (List ApMsg × ArmMemApModel)
  | 0 => .ok ([], m)
  | n + 1 =>
    match m.read_register 0xC with
    | .error e => .error e
    | .ok (msg, m2) =>
      match m2.drwReads n with
      | .error e => .error e
      | .ok (msgs, m3) => .ok (msg :: msgs, m3)

theorem split64_or (t : Nat) (ht : t < 2 ^ 64) :
    (((t >>> 32) &&& 0xFFFFFFFF) <<< 32) ||| (t &&& 0xFFFFFFFF) = t := by
  have hmask : (0xFFFFFFFF : Nat) = 2 ^ 32 - 1 := by norm_num
  have h1 : t &&& 0xFFFFFFFF = t % 2 ^ 32 := by
    rw [hmask, Nat.and_pow_two_sub_one_eq_mod]
  have hlt : t / 2 ^ 32 < 2 ^ 32 := by
    apply Nat.div_lt_of_lt_mul
    calc t < 2 ^ 64 := ht
    _ = 2 ^ 32 * 2 ^ 32 := by norm_num
  have h2 : (t >>> 32) &&& 0xFFFFFFFF = t / 2 ^ 32 := by
    rw [Nat.shiftRight_eq_div_pow, hmask, Nat.and_pow_two_sub_one_eq_mod,
      Nat.mod_eq_of_lt hlt]
  rw [h1, h2, Nat.shiftLeft_eq, Nat.mul_comm,
    ← Nat.mul_add_lt_is_or (Nat.mod_lt t (by norm_num)) (t / 2 ^ 32)]
  exact Nat.div_add_mod t (2 ^ 32)

theorem drwReads_single : ∀ (n a lo hi : Nat),
    (hi <<< 32) ||| lo = a →
    (hi = 0 ∨ (lo < 2 ^ 32 ∧ hi < 2 ^ 32)) →
    a + 4 * n < 2 ^ 64 →
    ∃ msgs mfin,
      ArmMemApModel.drwReads ⟨some lo, hi, some 4, some .Single⟩ n = .ok (msgs, mfin) ∧
      msgs.length = n ∧
      ∀ i (h2 : i < msgs.length), ∃ wide,
        msgs.get ⟨i, h2⟩ = .reading 32 (a + 4 * i) wide (some 32) := by
  intro n
  induction n with
  | zero =>
    intro a lo hi _ _ _
    exact ⟨[], ⟨some lo, hi, some 4, some .Single⟩, rfl, rfl,
      fun i h2 => absurd h2 (Nat.not_lt_zero i)⟩
  | succ n ih =>
    intro a lo hi hcomb hside hbound
    have hread : ArmMemApModel.read_register ⟨some lo, hi, some 4, some .Single⟩ 0xC =
        .ok (.reading 32 (if hi = 0 then lo else (hi <<< 32) ||| lo) (hi != 0) (some 32),
          ⟨some ((((hi <<< 32) ||| lo) + 4) &&& 0xFFFFFFFF),
           ((((hi <<< 32) ||| lo) + 4) >>> 32) &&& 0xFFFFFFFF,
           some 4, some .Single⟩) := rfl
    have haddr : (if hi = 0 then lo else (hi <<< 32) ||| lo) = a := by
      by_cases h0 : hi = 0
      · rw [if_pos h0, ← hcomb, h0, Nat.zero_shiftLeft, Nat.zero_or]
      · rw [if_neg h0]
        exact hcomb
    have ha4 : a + 4 < 2 ^ 64 := by omega
    have hcomb2 : ((((a + 4) >>> 32) &&& 0xFFFFFFFF) <<< 32) |||
        ((a + 4) &&& 0xFFFFFFFF) = a + 4 := split64_or (a + 4) ha4
    have hmask : (0xFFFFFFFF : Nat) = 2 ^ 32 - 1 := by norm_num
    have hlo2 : (a + 4) &&& 0xFFFFFFFF < 2 ^ 32 := by
      rw [hmask, Nat.and_pow_two_sub_one_eq_mod]
      exact Nat.mod_lt _ (by norm_num)
    have hhi2 : ((a + 4) >>> 32) &&& 0xFFFFFFFF < 2 ^ 32 := by
      rw [hmask, Nat.and_pow_two_sub_one_eq_mod]
      exact Nat.mod_lt _ (by norm_num)
    obtain ⟨msgs, mfin, hrun, hlen, hget⟩ :=
      ih (a + 4) ((a + 4) &&& 0xFFFFFFFF) (((a + 4) >>> 32) &&& 0xFFFFFFFF)
        hcomb2 (Or.inr ⟨hlo2, hhi2⟩) (by omega)
    refine ⟨.reading 32 a (hi != 0) (some 32) :: msgs, mfin, ?_, ?_, ?_⟩
    · rw [haddr] at hread
      simp only [ArmMemApModel.drwReads, hread, hcomb, hrun]
    · simp [hlen]
    · intro i h2
      match i with
      | 0 => exact ⟨hi != 0, by simp⟩
      | Nat.succ j =>
        have hj : j < msgs.length := by
          simp only [List.length_cons] at h2
          omega
        obtain ⟨wide, hw⟩ := hget j hj
        refine ⟨wide, ?_⟩
        have hshow : a + 4 * (j + 1) = (a + 4) + 4 * j := by ring
        rw [hshow]
        exact hw

/-- Claim C7: after a CSW write with size bits 0b010 (4-byte width) and
auto-increment Single (and zero mode bits, else the write itself
fails), and a TAR write with address addr, N successive DRW reads each
report a 32-bit access at the current TAR and then advance TAR by 4, so
the reported addresses are addr, addr+4, ..., addr+4*(N-1); with
auto-increment Packed a DRW access instead fails with
NotImplementedError.  (The bound keeps the incremented 64-bit TAR from
wrapping.) -/
theorem memap_drw_single_increment (v addr n : Nat)
    (hsz : v &&& 0x7 = 2) (hinc : (v >>> 4) &&& 0x3 = 1)
    (hmode : (v >>> 8) &&& 0xF = 0) (hbound : addr + 4 * n < 2 ^ 64) :
    ArmMemApModel.init.write_register 0x0 v =
      .ok (none, ⟨none, 0, some 4, some .Single⟩) ∧
    ArmMemApModel.write_register ⟨none, 0, some 4, some .Single⟩ 0x4 addr =
      .ok (none, ⟨some addr, 0, some 4, some .Single⟩) ∧
    (∃ msgs mfin,
      ArmMemApModel.drwReads ⟨some addr, 0, some 4, some .Single⟩ n =
        .ok (msgs, mfin) ∧
      msgs.length = n ∧
      ∀ i (h2 : i < msgs.length), ∃ wide,
        msgs.get ⟨i, h2⟩ = .reading 32 (addr + 4 * i) wide (some 32)) ∧
    (∀ m : ArmMemApModel, m.auto_increment = some .Packed →
      (∃ lo, m.tar_low = some lo) → (∃ w, m.width = some w) →
      m.read_register 0xC =
        .error (.notImplementedError "Packed auto-increment not implemented")) := by
  refine ⟨?_, ?_, ?_, ?_⟩
  · simp only [ArmMemApModel.write_register, ArmMemApModel.init, hsz, hinc, hmode]
    norm_num
  · rfl
  · exact drwReads_single n addr addr 0
      (by rw [Nat.zero_shiftLeft, Nat.zero_or]) (Or.inl rfl) hbound
  · intro m hpk hlo hw
    obtain ⟨lo, hlo⟩ := hlo
    obtain ⟨w, hw⟩ := hw
    obtain ⟨tl, th, wd, ai⟩ := m
    simp only at hlo hw hpk
    subst hlo
    subst hw
    subst hpk
    rfl

/-- Witness for C7 at CSW value 0x12, addr 0x10000000, N = 2: the
setup CSW write succeeds with width 4 and Single auto-increment. -/
theorem memap_drw_single_increment_witness :
    ArmMemApModel.init.write_register 0x0 0x12 =
      .ok (none, ⟨none, 0, some 4, some .Single⟩) :=
  (memap_drw_single_increment 0x12 0x10000000 2 (by decide) (by decide) (by decide)
    (by norm_num)).1

/-- The DR object a `ZynqPsJtagModel` holds: a `ShiftRegister` or (for
CFG_IN) a `SinkRegister`. -/
inductive ZynqDr where
  | sr (r : ShiftRegister)
  | sink (data : List Nat)
deriving Repr, DecidableEq

/-- The value `self.dr.read()` yields: an int for a `ShiftRegister`, the
bit list for a `SinkRegister`. -/
inductive ZynqDrVal where
  | int (v : Nat)
  | bits (l : List Nat)
deriving Repr, DecidableEq

/-- `read()` on the DR object. -/
def ZynqDr.read : ZynqDr → ZynqDrVal
  | .sr r => .int r.read
  | .sink l => .bits l

/-- `ZynqPsJtagModel` state from `zynq_usp_mpsoc_jtag_models.py`: the PS
TAP with its 12-bit IR and the owned handle to the DAP model it can
arm. -/
structure ZynqPsJtagModel where
  dap : ArmDapJtagModel
  ir : ShiftRegister
  captured_ir : Option Nat
  dr : Option ZynqDr
  dr_state : DrState
deriving Repr, DecidableEq

/-- `ZynqPsJtagModel.__init__(dap_model, dr_cb, ir_cb, verbose)`. -/
def ZynqPsJtagModel.init (dap : ArmDapJtagModel) : ZynqPsJtagModel :=
  { dap := dap, ir := ShiftRegister.init 12, captured_ir := none,
    dr := none, dr_state := .IDCODE }

/-- `ZynqPsJtagModel.update_dr()` (`zynq_usp_mpsoc_jtag_models.py`
lines 25-33): read the DR; when the selected DR is JTAG_CTRL and bit 1
of the value is set, call `self.dap_model.set_enable(True)`; then
invoke `dr_cb(dr_state, captured_ir, dr)` — the returned event.
(`dr & 0x2` on a SinkRegister list value would be a TypeError; that DR
is never selected as JTAG_CTRL.) -/
def ZynqPsJtagModel.update_dr (m : ZynqPsJtagModel) :
    Except PyErr (ZynqPsJtagModel × (DrState × Option Nat × ZynqDrVal)) :=
  match m.dr with
  | none => .error .attributeError
  | some d =>
    let dr := d.read
    if m.dr_state = .JTAG_CTRL then
      match dr with
      | .int v =>
        if v &&& 0x2 ≠ 0 then
          .ok ({ m with dap := m.dap.set_enable true },
               (m.dr_state, m.captured_ir, dr))
        else .ok (m, (m.dr_state, m.captured_ir, dr))
      | .bits _ => .error .typeError
    else .ok (m, (m.dr_state, m.captured_ir, dr))

/-- `ZynqPsJtagModel.reset()`: select IDCODE, clear the captured IR. -/
def ZynqPsJtagModel.reset (m : ZynqPsJtagModel) : ZynqPsJtagModel :=
  { m with dr_state := .IDCODE, captured_ir := none }

/-- A non-reset operation on the DAP model: every `JtagFsm` hook except
`reset`, plus the `set_enable` poke from the PS TAP. -/
inductive DapOp where
  | shiftDr (tdi : Nat)
  | shiftIr (tdi : Nat)
  | captureDr
  | captureIr
  | updateDr
  | updateIr
  | runIdle
  | setEnable (b : Bool)
deriving Repr, DecidableEq

/-- Apply one non-reset DAP operation, discarding its output. -/
def applyDapOp (m : ArmDapJtagModel) : DapOp → Except PyErr ArmDapJtagModel
  | .shiftDr tdi => (m.shift_dr tdi).map fun p => p.1
  | .shiftIr tdi => (m.shift_ir tdi).map fun p => p.1
  | .captureDr => m.capture_dr
  | .captureIr => m.capture_ir
  | .updateDr => (m.update_dr).map fun p => p.1
  | .updateIr => m.update_ir
  | .runIdle => .ok m.run_idle
  | .setEnable b => .ok (m.set_enable b)

/-- Run a sequence of non-reset DAP operations. -/
def runDapOps (m : ArmDapJtagModel) : List DapOp → Except PyErr ArmDapJtagModel
  | [] => .ok m
  | op :: rest =>
    match applyDapOp m op with
    | .error e => .error e
    | .ok m2 => runDapOps m2 rest

theorem applyDapOp_preserves_enable (m m2 : ArmDapJtagModel) (op : DapOp)
    (h : applyDapOp m op = .ok m2) : m2.enable = m.enable := by
  cases op with
  | shiftDr tdi =>
    simp only [applyDapOp, ArmDapJtagModel.shift_dr] at h
    cases hdr : m.dr with
    | none =>
      rw [hdr] at h
      cases h
    | some dr =>
      rw [hdr] at h
      simp only [Except.map] at h
      cases hs : dr.shift tdi with
      | error e =>
        rw [hs] at h
        cases h
      | ok p =>
        obtain ⟨tdo, dr2⟩ := p
        rw [hs] at h
        injection h with h2
        subst h2
        rfl
  | shiftIr tdi =>
    simp only [applyDapOp, ArmDapJtagModel.shift_ir] at h
    cases hs : m.ir.shift tdi with
    | error e =>
      rw [hs] at h
      cases h
    | ok p =>
      obtain ⟨tdo, ir2⟩ := p
      rw [hs] at h
      injection h with h2
      subst h2
      rfl
  | captureDr =>
    simp only [applyDapOp, ArmDapJtagModel.capture_dr] at h
    (repeat' split at h) <;>
      first
        | (injection h with h2; subst h2; rfl)
        | (injection h)
        | rfl
  | captureIr =>
    simp only [applyDapOp, ArmDapJtagModel.capture_ir] at h
    (repeat' split at h) <;>
      first
        | (injection h with h2; subst h2; rfl)
        | (injection h)
        | rfl
  | updateDr =>
    simp only [applyDapOp, ArmDapJtagModel.update_dr] at h
    cases hdr : m.dr with
    | none =>
      rw [hdr] at h
      cases h
    | some dr =>
      rw [hdr] at h
      injection h with h2
      subst h2
      rfl
  | updateIr =>
    simp only [applyDapOp, ArmDapJtagModel.update_ir] at h
    (repeat' split at h) <;>
      first
        | (injection h with h2; subst h2; rfl)
        | (injection h)
        | rfl
  | runIdle =>
    injection h with h2
    subst h2
    rfl
  | setEnable b =>
    injection h with h2
    subst h2
    rfl

theorem runDapOps_preserves_enable : ∀ (ops : List DapOp) (m m2 : ArmDapJtagModel),
    runDapOps m ops = .ok m2 → m2.enable = m.enable := by
  intro ops
  induction ops with
  | nil =>
    intro m m2 h
    injection h with h2
    subst h2
    rfl
  | cons op rest ih =>
    intro m m2 h
    simp only [runDapOps] at h
    split at h
    · cases h
    · rename_i mmid hop
      exact (ih mmid m2 h).trans (applyDapOp_preserves_enable m mmid op hop)

/-- Claim C8: a Zynq PS DR update with dr_state == JTAG_CTRL and bit 1
of the DR value set calls `set_enable(True)` on the DAP, which only
arms `will_enable`; a disabled DAP (enable latched false) stays
disabled across any sequence of non-reset operations — during which
every IRUPDATE still selects only BYPASS — and the next RESET latches
the armed flag, making the DAP enabled with DR state IDCODE. -/
theorem jtag_ctrl_arms_enable_for_next_reset :
    (∀ (m : ZynqPsJtagModel) (d : ShiftRegister) (v : Nat),
      m.dr = some (.sr d) → m.dr_state = .JTAG_CTRL → d.read = v →
      v &&& 0x2 ≠ 0 →
      m.update_dr = .ok ({ m with dap := { m.dap with will_enable := true } },
        (.JTAG_CTRL, m.captured_ir, .int v))) ∧
    (∀ (ops : List DapOp) (m m2 : ArmDapJtagModel),
      runDapOps m ops = .ok m2 → m2.enable = m.enable) ∧
    (∀ m : ArmDapJtagModel, m.enable = some false →
      m.update_ir = .ok { m with dap_state := .BYPASS }) ∧
    (∀ m : ArmDapJtagModel, m.will_enable = true →
      m.reset = { m with enable := some true, dap_state := .IDCODE }) := by
  refine ⟨?_, runDapOps_preserves_enable, ?_, ?_⟩
  · intro m d v hdr hst hv hbit
    subst hv
    simp only [ZynqPsJtagModel.update_dr, hdr, hst, ZynqDr.read,
      ArmDapJtagModel.set_enable, if_true]
    rw [if_pos hbit]
  · intro m h
    simp only [ArmDapJtagModel.update_ir, h, Bool.false_eq_true, if_false]
  · intro m h
    simp only [ArmDapJtagModel.reset, h, if_true]

/-- Witness for C8: a PS TAP with JTAG_CTRL selected and DR value 2
(bit 1 set) arms the disabled DAP without enabling it. -/
theorem jtag_ctrl_arms_enable_for_next_reset_witness :
    ZynqPsJtagModel.update_dr
        { dap := ArmDapJtagModel.init false, ir := ShiftRegister.init 12,
          captured_ir := none, dr := some (.sr ⟨[0, 1], 2⟩),
          dr_state := .JTAG_CTRL } =
      .ok ({ dap := { ir := ShiftRegister.init 4, dr := none, dap_state := .BYPASS,
                      will_enable := true, enabled := false, enable := none },
             ir := ShiftRegister.init 12, captured_ir := none,
             dr := some (.sr ⟨[0, 1], 2⟩), dr_state := .JTAG_CTRL },
           (.JTAG_CTRL, none, .int 2)) :=
  jtag_ctrl_arms_enable_for_next_reset.1
    { dap := ArmDapJtagModel.init false, ir := ShiftRegister.init 12,
      captured_ir := none, dr := some (.sr ⟨[0, 1], 2⟩), dr_state := .JTAG_CTRL }
    ⟨[0, 1], 2⟩ 2 rfl rfl rfl (by decide)
